import Mathlib

/-!
Verification development for the schema-to-TypeScript generation tool
(tools/quicktype_runner.js). The JavaScript program is shallowly embedded:
parsed JSON documents become the inductive type JValue, the annotation
pre-processor appendDeprecatedDescription becomes a total function on
JValue (the JSON.parse / JSON.stringify round trip at its boundary is
value-preserving, so claims about the rewritten document are stated on
parsed values), and the reference resolver and program entry point become
functions over explicit environments describing the filesystem, the
network and the opaque external generator library.
-/

/-- Model of a parsed JSON value, as produced by JSON.parse. Numbers are
modelled as integers (the schemas manipulated by the tool only use numeric
flags); object fields are an association list in insertion order with
distinct keys, which is what JSON.parse yields. -/
inductive JValue : Type where
  | null : JValue
  | bool (b : Bool) : JValue
  | num (n : Int) : JValue
  | str (s : String) : JValue
  | arr (elems : List JValue) : JValue
  | obj (fields : List (String × JValue)) : JValue

/-- JavaScript truthiness of a parsed JSON value: false, 0, the empty
string and null are falsy; every object and array is truthy. Used for the
`if (!deprecated) continue` test in appendDeprecatedDescription. -/
def jsTruthy : JValue → Bool
  | .null => false
  | .bool b => b
  | .num n => n != 0
  | .str s => s != ""
  | .arr _ => true
  | .obj _ => true

mutual

/-- JavaScript ToString coercion of a parsed JSON value, as applied by the
string concatenation `description += ...` when the pre-existing
description is not itself a string. Arrays stringify through
Array.prototype.join with comma separators and null elements rendered as
the empty string; plain objects render as the usual object tag. -/
def jsToString : JValue → String
  | .null => "null"
  | .bool b => if b then "true" else "false"
  | .num n => toString n
  | .str s => s
  | .obj _ => "[object Object]"
  | .arr elems => jsArrJoin elems

/-- Comma join used by the array case of jsToString; a null element
contributes the empty string, as in Array.prototype.join. -/
def jsArrJoin : List JValue → String
  | [] => ""
  | [.null] => ""
  | [v] => jsToString v
  | .null :: vs => "," ++ jsArrJoin vs
  | v :: vs => jsToString v ++ "," ++ jsArrJoin vs

end

/-- Property read on a parsed JSON object: the value bound to a key, or
none when the key is absent (JavaScript would yield undefined). -/
def jLookup (fields : List (String × JValue)) (key : String) : Option JValue :=
  match fields.find? (fun kv => kv.1 == key) with
  | some kv => some kv.2
  | none => none

/-- Property write on a parsed JSON object, as done by the assignment
`props[key].description = description`: an existing binding is updated in
place, keeping its position; a new binding is appended at the end, which
is where JavaScript property creation places it. -/
def setField (fields : List (String × JValue)) (key : String) (v : JValue) :
    List (String × JValue) :=
  if fields.any (fun kv => kv.1 == key) then
    fields.map (fun kv => if kv.1 == key then (key, v) else kv)
  else fields ++ [(key, v)]

/-- Body of the for-in loop of appendDeprecatedDescription, acting on one
entry value props[key]. Destructuring null throws a TypeError (the error
branch); destructuring any other non-object yields undefined fields, so
the falsy x-deprecated test skips the entry. For an object entry with a
truthy x-deprecated value, the description field is replaced by the
coerced prior description (defaulting to the empty string only when the
field is absent) followed by the deprecation marker, and, when the
annotation is itself a string, a space and the annotation text. -/
def entryRewrite : JValue → Except Unit JValue
  | .null => .error ()
  | .obj efs =>
    match jLookup efs "x-deprecated" with
    | none => .ok (.obj efs)
    | some d =>
      if jsTruthy d then
        let descVal := (jLookup efs "description").getD (.str "")
        let suffix :=
          match d with
          | .str ds => "\n@deprecated " ++ ds
          | _ => "\n@deprecated"
        .ok (.obj (setField efs "description" (.str (jsToString descVal ++ suffix))))
      else .ok (.obj efs)
  | v => .ok v

/-- Sequential traversal with early exit, modelling a loop whose body can
throw: the first thrown error aborts the whole traversal. -/
def mapExcept {α β : Type} (f : α → Except Unit β) : List α → Except Unit (List β)
  | [] => .ok []
  | x :: xs =>
    match f x with
    | .error e => .error e
    | .ok y =>
      match mapExcept f xs with
      | .error e => .error e
      | .ok ys => .ok (y :: ys)

/-- The for-in loop of appendDeprecatedDescription over the value of the
top-level properties member. For an object it visits every entry value;
for an array, every element (for-in enumerates array indices); for-in over
a primitive or null visits nothing, leaving the value unchanged. -/
def propsRewrite : JValue → Except Unit JValue
  | .obj pfs =>
    match mapExcept (fun kv => (entryRewrite kv.2).map (fun v2 => (kv.1, v2))) pfs with
    | .ok pfs2 => .ok (.obj pfs2)
    | .error e => .error e
  | .arr elems =>
    match mapExcept entryRewrite elems with
    | .ok elems2 => .ok (.arr elems2)
    | .error e => .error e
  | v => .ok v

/-- Value-level model of appendDeprecatedDescription: the transformation
the function performs between JSON.parse and JSON.stringify. Reading the
properties member of the null document throws a TypeError; a document
without a properties member is returned unchanged; otherwise the
properties value is rewritten entry by entry and written back in place. -/
def appendDeprecatedDescription : JValue → Except Unit JValue
  | .null => .error ()
  | .obj fields =>
    match jLookup fields "properties" with
    | none => .ok (.obj fields)
    | some props =>
      match propsRewrite props with
      | .ok props2 => .ok (.obj (setField fields "properties" props2))
      | .error e => .error e
  | v => .ok v

/-- String-level appendDeprecatedDescription as called by generate and by
the resolver: parse the schema text (JSON.parse, whose failure throws),
rewrite the parsed value, and re-serialize. The JSON.parse and
JSON.stringify primitives are supplied as parameters since they are
runtime built-ins, not code of this repository. -/
def appendDeprecatedDescriptionStr (jsonParse : String → Except Unit JValue)
    (jsonStringify : JValue → String) (schema : String) : Except Unit String :=
  match jsonParse schema with
  | .error e => .error e
  | .ok v =>
    match appendDeprecatedDescription v with
    | .error e => .error e
    | .ok v2 => .ok (jsonStringify v2)

/-- Value of the local variable content inside
FetchingJSONSchemaStore.fetch. The JavaScript variable holds null, a
string, or, because the call response.text() is not awaited, a pending
promise object; the promise case records exactly that object, whose only
later use is its string coercion. -/
inductive FetchContent : Type where
  | null : FetchContent
  | promise : FetchContent
  | str (s : String) : FetchContent
deriving DecidableEq

/-- Outcome of one call to FetchingJSONSchemaStore.fetch: undefined (the
absence signal), a successfully parsed schema value, or an exception
propagating out of the method. -/
inductive FetchOutcome : Type where
  | absent : FetchOutcome
  | parsed (v : JValue) : FetchOutcome
  | errored : FetchOutcome

/-- Environment for one resolution of one address: the relevant results of
url.parse on that address, whether the global fetch promise resolves, the
text the response body would yield, the filesystem (existsSync is
isSome, readFileSync reads the content and throws when absent), the Node
path primitives, JSON.parse, and the directory of the running script. -/
structure FetchEnv : Type where
  protocol : Option String
  hostname : Option String
  urlPath : Option String
  httpOk : Bool
  httpBody : String
  fs : String → Option String
  pathJoin : List String → String
  dirname : String → String
  isAbsolute : String → Bool
  jsonParse : String → Except Unit JValue
  scriptDir : String

/-- Truthiness of url.hostname: a present, non-empty host string. -/
def hostTruthy (env : FetchEnv) : Bool :=
  match env.hostname with
  | some h => h != ""
  | none => false

/-- First stage of fetch: the protocol dispatch. The custom ng-cli scheme
reads the join of the package-relative base directory with the host and
path of the address, trimming the content; a missing file makes
readFileSync throw and the error propagates (and so does the TypeError of
path.join when the parsed address lacks a host or path). Otherwise, when
the address has a truthy host, the code awaits the global fetch: if that
promise rejects the catch block resets content to null, and if it
resolves, content receives the un-awaited response.text() promise object
(the response body itself is never read). Any other address leaves
content null. -/
def fetchStep1 (env : FetchEnv) : Except Unit FetchContent :=
  if env.protocol = some "ng-cli:" then
    match env.hostname, env.urlPath with
    | some h, some p =>
      match env.fs (env.pathJoin [env.scriptDir, "../packages/angular/cli", h, p]) with
      | some c => .ok (.str c.trim)
      | none => .error ()
    | _, _ => .error ()
  else if hostTruthy env then
    .ok (if env.httpOk then .promise else .null)
  else .ok .null

/-- Fallback stages of fetch: when content is still strictly null and the
address is not absolute, try the path joined from the directory of the
input file and the address, reading it without trimming when it exists;
when content is still null, try the address itself as a path, trimming on
success. A promise or string content skips both fallbacks. -/
def fetchFallbacks (env : FetchEnv) (inPath address : String) (c0 : FetchContent) :
    FetchContent :=
  let c1 :=
    if c0 = .null ∧ env.isAbsolute address = false then
      match env.fs (env.pathJoin [env.dirname inPath, address]) with
      | some c => FetchContent.str c
      | none => FetchContent.null
    else c0
  if c1 = .null then
    match env.fs address with
    | some c => FetchContent.str c.trim
    | none => FetchContent.null
  else c1

/-- Final stage of fetch: the retrieved content is passed through
appendDeprecatedDescription, whose JSON.parse throws on text that is not
JSON, and the rewritten text is parsed again by parseJSON of the generator
library; since that reparses the JSON.stringify output of the rewrite, the
returned value is the rewritten value itself. -/
def finishFetch (jsonParse : String → Except Unit JValue) (text : String) : FetchOutcome :=
  match jsonParse text with
  | .error _ => .errored
  | .ok v =>
    match appendDeprecatedDescription v with
    | .error _ => .errored
    | .ok v2 => .parsed v2

/-- Model of FetchingJSONSchemaStore.fetch. A string content reaches the
final parsing stage directly; the un-awaited promise stored by the network
branch reaches it through its JavaScript string coercion, the literal text
of the object tag; null content returns undefined. -/
def FetchingJSONSchemaStore.fetch (env : FetchEnv) (inPath address : String) :
    FetchOutcome :=
  match fetchStep1 env with
  | .error _ => .errored
  | .ok c0 =>
    match fetchFallbacks env inPath address c0 with
    | .null => .absent
    | .promise => finishFetch env.jsonParse "[object Promise]"
    | .str s => finishFetch env.jsonParse s

/-- Fixed header prepended to every generated file. -/
def header : String :=
  "\n// THIS FILE IS AUTOMATICALLY GENERATED. TO UPDATE THIS FILE YOU NEED TO CHANGE THE\n// CORRESPONDING JSON SCHEMA FILE, THEN RUN devkit-admin build (or bazel build ...).\n\n"

/-- Fixed empty footer appended to every generated file. -/
def footer : String := ""

/-- Environment of one program run: the filesystem, the JSON primitives,
the opaque quicktype invocation (mapping the pre-processed top-level
schema text to emitted lines, or to an error modelling any rejection of
the quicktype promise, including exceptions propagating from the schema
store), and the resolution of the output path against the build workspace
directory. -/
structure GenEnv : Type where
  fs : String → Option String
  jsonParse : String → Except Unit JValue
  jsonStringify : JValue → String
  quicktypeLines : String → Except Unit (List String)
  workspaceResolve : String → String

/-- Model of generate: read the input file (readFileSync throws when it is
absent), pre-process it with appendDeprecatedDescription (whose JSON.parse
throws on malformed input), run quicktype, and wrap the emitted lines with
the header and footer, joining them with newlines. -/
def generate (env : GenEnv) (inPath : String) : Except Unit String :=
  match env.fs inPath with
  | none => .error ()
  | some content =>
    match appendDeprecatedDescriptionStr env.jsonParse env.jsonStringify content with
    | .error e => .error e
    | .ok schema =>
      match env.quicktypeLines schema with
      | .error e => .error e
      | .ok lines => .ok (header ++ String.intercalate "\n" lines ++ footer)

/-- Observable outcome of one program invocation: the exit status, the
lines printed to standard output and to standard error, and the single
filesystem write of the output (path and content), when one happens. -/
structure RunOutcome : Type where
  exitCode : Nat
  stdoutLines : List String
  stderrLines : List String
  written : Option (String × String)
deriving DecidableEq

/-- Model of main together with the then and catch handlers attached to it
by the entry point: a generation failure is caught, printed and exits with
status 127 before any write; with the dash sentinel as output path the
content goes to standard output and the process exits 0 without touching
the filesystem; otherwise the output path is resolved against the build
workspace directory, the file is written, and the process exits 0. -/
def mainModel (env : GenEnv) (inPath outPath : String) : RunOutcome :=
  match generate env inPath with
  | .error _ => ⟨127, [], ["An error happened:"], none⟩
  | .ok content =>
    if outPath = "-" then ⟨0, [content], [], none⟩
    else ⟨0, [], [], some (env.workspaceResolve outPath, content)⟩

/-- Model of the entry point guard: with fewer than 2 or more than 3
positional arguments an error message is printed and the process exits
with status 1; otherwise main runs on the first two arguments. -/
def runProgram (env : GenEnv) (argv : List String) : RunOutcome :=
  if argv.length < 2 || argv.length > 3 then
    ⟨1, [], ["Must include 2 or 3 arguments."], none⟩
  else
    mainModel env (argv.headD "") ((argv.drop 1).headD "")

/-- Updating a key present in the object leaves the lookup of that key at
the new value. -/
theorem jLookup_map_set (k : String) (v : JValue) :
    ∀ fs : List (String × JValue), fs.any (fun kv => kv.1 == k) = true →
      jLookup (fs.map (fun kv => if kv.1 == k then (k, v) else kv)) k = some v := by
  intro fs
  induction fs with
  | nil => intro h; simp at h
  | cons a as ih =>
    intro h
    by_cases hk : (a.1 == k) = true
    · simp [jLookup, List.find?, hk]
    · have hk2 : (a.1 == k) = false := by simpa using hk
      rw [List.any_cons, hk2, Bool.false_or] at h
      have := ih h
      simp only [List.map_cons, if_neg hk] at *
      simpa [jLookup, List.find?, hk2] using this

/-- Appending a fresh binding makes the lookup of its key return it. -/
theorem jLookup_append_set (k : String) (v : JValue) :
    ∀ fs : List (String × JValue), fs.any (fun kv => kv.1 == k) = false →
      jLookup (fs ++ [(k, v)]) k = some v := by
  intro fs
  induction fs with
  | nil => intro _; simp [jLookup, List.find?]
  | cons a as ih =>
    intro h
    rw [List.any_cons, Bool.or_eq_false_iff] at h
    simpa [jLookup, List.find?, h.1] using ih h.2

/-- Lookup of a key right after setField writes it. -/
theorem jLookup_setField_self (fs : List (String × JValue)) (k : String) (v : JValue) :
    jLookup (setField fs k v) k = some v := by
  cases hany : fs.any (fun kv => kv.1 == k) with
  | true =>
    rw [setField, if_pos hany]
    exact jLookup_map_set k v fs hany
  | false =>
    rw [setField, if_neg (by simp [hany])]
    exact jLookup_append_set k v fs hany

/-- Successful mapExcept relates input and output entrywise: the element
at each position of the output is the successful image of the element at
the same position of the input. -/
theorem mapExcept_ok_pointwise {α β : Type} (f : α → Except Unit β) :
    ∀ (xs : List α) (ys : List β), mapExcept f xs = .ok ys →
      ∀ (i : Nat) (x : α), xs[i]? = some x → ∃ y, f x = .ok y ∧ ys[i]? = some y := by
  intro xs
  induction xs with
  | nil => intro ys _ i x hx; simp at hx
  | cons a as ih =>
    intro ys hys i x hx
    simp only [mapExcept] at hys
    cases hfa : f a with
    | error e => rw [hfa] at hys; cases hys
    | ok y =>
      rw [hfa] at hys
      cases hrest : mapExcept f as with
      | error e => rw [hrest] at hys; cases hys
      | ok ys2 =>
        rw [hrest] at hys
        cases hys
        cases i with
        | zero =>
          simp only [List.getElem?_cons_zero, Option.some.injEq] at hx
          subst hx
          exact ⟨y, hfa, by simp⟩
        | succ n =>
          simp only [List.getElem?_cons_succ] at hx
          obtain ⟨y2, h1, h2⟩ := ih ys2 hrest n x hx
          exact ⟨y2, h1, by simpa using h2⟩

/-- Shape of a successful run of the pre-processor on a document whose
properties member is an object: the result is the document with its
properties member replaced in place, and every entry of the new
properties object is the entrywise rewrite of the corresponding input
entry, with its key preserved. -/
theorem appendDeprecated_pointwise (fields pfs : List (String × JValue)) (out : JValue)
    (hprops : jLookup fields "properties" = some (.obj pfs))
    (hok : appendDeprecatedDescription (.obj fields) = .ok out) :
    ∃ pfs2, out = .obj (setField fields "properties" (.obj pfs2)) ∧
      ∀ (i : Nat) (kv : String × JValue), pfs[i]? = some kv →
        ∃ v2, entryRewrite kv.2 = .ok v2 ∧ pfs2[i]? = some (kv.1, v2) := by
  simp only [appendDeprecatedDescription] at hok
  rw [hprops] at hok
  simp only [propsRewrite] at hok
  cases hmap : mapExcept (fun kv => (entryRewrite kv.2).map (fun v2 => (kv.1, v2))) pfs with
  | error e => rw [hmap] at hok; cases hok
  | ok pfs2 =>
    rw [hmap] at hok
    cases hok
    refine ⟨pfs2, rfl, ?_⟩
    intro i kv hkv
    obtain ⟨y, hy, hy2⟩ := mapExcept_ok_pointwise _ pfs pfs2 hmap i kv hkv
    cases her : entryRewrite kv.2 with
    | error e => rw [her] at hy; cases hy
    | ok v2 =>
      rw [her] at hy
      simp only [Except.map, Except.ok.injEq] at hy
      subst hy
      exact ⟨v2, rfl, hy2⟩

/-- An entry without the x-deprecated key is returned unchanged by the
loop body. -/
theorem entryRewrite_no_key (efs : List (String × JValue))
    (h : jLookup efs "x-deprecated" = none) :
    entryRewrite (.obj efs) = .ok (.obj efs) := by
  simp [entryRewrite, h]

/-- An entry whose x-deprecated value is falsy is returned unchanged by
the loop body. -/
theorem entryRewrite_falsy (efs : List (String × JValue)) (d : JValue)
    (h : jLookup efs "x-deprecated" = some d) (hf : jsTruthy d = false) :
    entryRewrite (.obj efs) = .ok (.obj efs) := by
  simp [entryRewrite, h, hf]

/-- An entry whose x-deprecated value is truthy and not a string gets its
description replaced by the coerced prior description followed by the bare
deprecation marker. -/
theorem entryRewrite_truthy_nonstr (efs : List (String × JValue)) (d : JValue)
    (h : jLookup efs "x-deprecated" = some d) (ht : jsTruthy d = true)
    (hns : ∀ s, d ≠ .str s) :
    entryRewrite (.obj efs) = .ok (.obj (setField efs "description"
      (.str (jsToString ((jLookup efs "description").getD (.str "")) ++ "\n@deprecated")))) := by
  cases d with
  | str s => exact absurd rfl (hns s)
  | null => simp [jsTruthy] at ht
  | bool b => cases b with
    | false => simp [jsTruthy] at ht
    | true => simp [entryRewrite, h, jsTruthy]
  | num n => simp [entryRewrite, h, ht]
  | arr elems => simp [entryRewrite, h, jsTruthy]
  | obj ofs => simp [entryRewrite, h, jsTruthy]

/-- An entry whose x-deprecated value is a non-empty string gets its
description replaced by the coerced prior description, the deprecation
marker, a space, and the annotation text. -/
theorem entryRewrite_truthy_str (efs : List (String × JValue)) (ds : String)
    (h : jLookup efs "x-deprecated" = some (.str ds)) (hne : ds ≠ "") :
    entryRewrite (.obj efs) = .ok (.obj (setField efs "description"
      (.str (jsToString ((jLookup efs "description").getD (.str "")) ++
        ("\n@deprecated " ++ ds))))) := by
  have ht : jsTruthy (.str ds) = true := by
    simp [jsTruthy]
    exact hne
  simp [entryRewrite, h, ht]

/-- The empty string is a left identity of string append. -/
theorem str_empty_append (s : String) : "" ++ s = s := by
  cases s with
  | mk l => rfl

/-- Claim C1: for every top-level properties entry of the pre-processed
schema, an entry with x-deprecated true and no prior description gets the
exact description text of a newline followed by the deprecation marker,
and an entry whose x-deprecated value is a non-empty string gets its
prior description (empty when absent) followed by the newline, the
marker, a space, and the annotation text, so the prior description is a
prefix and the marker text a suffix of the result. -/
theorem claim_c1_deprecated_marker :
    (∀ (fields pfs : List (String × JValue)) (out : JValue) (i : Nat) (k : String)
      (efs : List (String × JValue)),
      jLookup fields "properties" = some (.obj pfs) →
      appendDeprecatedDescription (.obj fields) = .ok out →
      pfs[i]? = some (k, .obj efs) →
      jLookup efs "x-deprecated" = some (.bool true) →
      jLookup efs "description" = none →
      ∃ pfs2 efs2, out = .obj (setField fields "properties" (.obj pfs2)) ∧
        pfs2[i]? = some (k, .obj efs2) ∧
        jLookup efs2 "description" = some (.str "\n@deprecated")) ∧
    (∀ (fields pfs : List (String × JValue)) (out : JValue) (i : Nat) (k : String)
      (efs : List (String × JValue)) (ds d0 : String),
      jLookup fields "properties" = some (.obj pfs) →
      appendDeprecatedDescription (.obj fields) = .ok out →
      pfs[i]? = some (k, .obj efs) →
      jLookup efs "x-deprecated" = some (.str ds) →
      ds ≠ "" →
      ((jLookup efs "description" = none ∧ d0 = "") ∨
        jLookup efs "description" = some (.str d0)) →
      ∃ pfs2 efs2, out = .obj (setField fields "properties" (.obj pfs2)) ∧
        pfs2[i]? = some (k, .obj efs2) ∧
        jLookup efs2 "description" = some (.str (d0 ++ ("\n@deprecated " ++ ds)))) := by
  constructor
  · intro fields pfs out i k efs hprops hok hi hdep hdesc
    obtain ⟨pfs2, hout, hpt⟩ := appendDeprecated_pointwise fields pfs out hprops hok
    obtain ⟨v2, hv2, hv2i⟩ := hpt i (k, .obj efs) hi
    have her := entryRewrite_truthy_nonstr efs (.bool true) hdep rfl
      (by intro s hs; cases hs)
    rw [hdesc] at her
    simp only [Option.getD_none] at her
    have hstr : jsToString (JValue.str "") ++ "\n@deprecated" = "\n@deprecated" :=
      str_empty_append _
    rw [hstr] at her
    have hv := Except.ok.inj (her.symm.trans hv2)
    refine ⟨pfs2, setField efs "description" (.str "\n@deprecated"), hout, ?_, ?_⟩
    · rw [hv2i, ← hv]
    · exact jLookup_setField_self efs "description" (.str "\n@deprecated")
  · intro fields pfs out i k efs ds d0 hprops hok hi hdep hne hdesc
    obtain ⟨pfs2, hout, hpt⟩ := appendDeprecated_pointwise fields pfs out hprops hok
    obtain ⟨v2, hv2, hv2i⟩ := hpt i (k, .obj efs) hi
    have her := entryRewrite_truthy_str efs ds hdep hne
    rcases hdesc with ⟨hdesc, hd0⟩ | hdesc
    · subst hd0
      rw [hdesc] at her
      simp only [Option.getD_none] at her
      have hv := Except.ok.inj (her.symm.trans hv2)
      refine ⟨pfs2,
        setField efs "description" (.str (jsToString (JValue.str "") ++ ("\n@deprecated " ++ ds))),
        hout, ?_, ?_⟩
      · rw [hv2i, ← hv]
      · exact jLookup_setField_self efs "description" _
    · rw [hdesc] at her
      simp only [Option.getD_some] at her
      have hv := Except.ok.inj (her.symm.trans hv2)
      refine ⟨pfs2,
        setField efs "description" (.str (jsToString (JValue.str d0) ++ ("\n@deprecated " ++ ds))),
        hout, ?_, ?_⟩
      · rw [hv2i, ← hv]
      · exact jLookup_setField_self efs "description" _

/-- Example document for the C1 witness: one property deprecated with the
boolean flag and no description, one deprecated with an annotation text
and a prior description. -/
def exDeprTrue : List (String × JValue) := [("x-deprecated", JValue.bool true)]

/-- Second example entry for the C1 witness. -/
def exDeprStr : List (String × JValue) :=
  [("description", JValue.str "Old."), ("x-deprecated", JValue.str "use X instead")]

/-- Properties object for the C1 witness. -/
def exProps : List (String × JValue) :=
  [("optA", JValue.obj exDeprTrue), ("optB", JValue.obj exDeprStr)]

/-- Document for the C1 witness. -/
def exFields : List (String × JValue) := [("properties", JValue.obj exProps)]

/-- Pre-processed result of the C1 witness document. -/
def exOut : JValue :=
  JValue.obj [("properties", JValue.obj
    [("optA", JValue.obj
      [("x-deprecated", JValue.bool true), ("description", JValue.str "\n@deprecated")]),
     ("optB", JValue.obj
      [("description", JValue.str "Old.\n@deprecated use X instead"),
       ("x-deprecated", JValue.str "use X instead")])])]

/-- Witness for claim C1 at the concrete example document. -/
theorem claim_c1_witness :
    (∃ pfs2 efs2, exOut = JValue.obj (setField exFields "properties" (JValue.obj pfs2)) ∧
      pfs2[0]? = some ("optA", JValue.obj efs2) ∧
      jLookup efs2 "description" = some (JValue.str "\n@deprecated")) ∧
    (∃ pfs2 efs2, exOut = JValue.obj (setField exFields "properties" (JValue.obj pfs2)) ∧
      pfs2[1]? = some ("optB", JValue.obj efs2) ∧
      jLookup efs2 "description" =
        some (JValue.str ("Old." ++ ("\n@deprecated " ++ "use X instead")))) := by
  constructor
  · exact claim_c1_deprecated_marker.1 exFields exProps exOut 0 "optA" exDeprTrue
      rfl rfl rfl rfl rfl
  · exact claim_c1_deprecated_marker.2 exFields exProps exOut 1 "optB" exDeprStr
      "use X instead" "Old." rfl rfl rfl rfl (by decide) (Or.inr rfl)

/-- Claim C5: a top-level properties entry without the x-deprecated key is
left entirely unchanged by the pre-processor, its key, its description
and every other field included. -/
theorem claim_c5_no_annotation_identity :
    ∀ (fields pfs : List (String × JValue)) (out : JValue) (i : Nat) (k : String)
      (efs : List (String × JValue)),
      jLookup fields "properties" = some (.obj pfs) →
      appendDeprecatedDescription (.obj fields) = .ok out →
      pfs[i]? = some (k, .obj efs) →
      jLookup efs "x-deprecated" = none →
      ∃ pfs2, out = .obj (setField fields "properties" (.obj pfs2)) ∧
        pfs2[i]? = some (k, .obj efs) := by
  intro fields pfs out i k efs hprops hok hi hx
  obtain ⟨pfs2, hout, hpt⟩ := appendDeprecated_pointwise fields pfs out hprops hok
  obtain ⟨v2, hv2, hv2i⟩ := hpt i (k, .obj efs) hi
  have her := entryRewrite_no_key efs hx
  have hv := Except.ok.inj (her.symm.trans hv2)
  exact ⟨pfs2, hout, by rw [hv2i, ← hv]⟩

/-- Plain entry for the C5 witness. -/
def exPlain : List (String × JValue) := [("type", JValue.str "string")]

/-- Document for the C5 witness. -/
def exFields5 : List (String × JValue) :=
  [("properties", JValue.obj [("name", JValue.obj exPlain)])]

/-- Witness for claim C5 at the concrete example document. -/
theorem claim_c5_witness :
    ∃ pfs2, JValue.obj exFields5 =
        JValue.obj (setField exFields5 "properties" (JValue.obj pfs2)) ∧
      pfs2[0]? = some ("name", JValue.obj exPlain) :=
  claim_c5_no_annotation_identity exFields5 [("name", JValue.obj exPlain)]
    (JValue.obj exFields5) 0 "name" exPlain rfl rfl rfl rfl

/-- Claim C9: a top-level properties entry whose x-deprecated value is
present but falsy, namely false, the empty string, zero or null, is
treated like one without the annotation: the entry is left entirely
unchanged and no deprecation marker is appended. -/
theorem claim_c9_falsy_annotation_skipped :
    ∀ (fields pfs : List (String × JValue)) (out : JValue) (i : Nat) (k : String)
      (efs : List (String × JValue)) (d : JValue),
      jLookup fields "properties" = some (.obj pfs) →
      appendDeprecatedDescription (.obj fields) = .ok out →
      pfs[i]? = some (k, .obj efs) →
      jLookup efs "x-deprecated" = some d →
      (d = .bool false ∨ d = .str "" ∨ d = .num 0 ∨ d = .null) →
      ∃ pfs2, out = .obj (setField fields "properties" (.obj pfs2)) ∧
        pfs2[i]? = some (k, .obj efs) := by
  intro fields pfs out i k efs d hprops hok hi hx hd
  have hf : jsTruthy d = false := by
    rcases hd with h | h | h | h <;> subst h <;> rfl
  obtain ⟨pfs2, hout, hpt⟩ := appendDeprecated_pointwise fields pfs out hprops hok
  obtain ⟨v2, hv2, hv2i⟩ := hpt i (k, .obj efs) hi
  have her := entryRewrite_falsy efs d hx hf
  have hv := Except.ok.inj (her.symm.trans hv2)
  exact ⟨pfs2, hout, by rw [hv2i, ← hv]⟩

/-- Entry with a falsy annotation for the C9 witness. -/
def exFalsy : List (String × JValue) :=
  [("description", JValue.str "Keep."), ("x-deprecated", JValue.bool false)]

/-- Document for the C9 witness. -/
def exFields9 : List (String × JValue) :=
  [("properties", JValue.obj [("flag", JValue.obj exFalsy)])]

/-- Witness for claim C9 at the concrete example document. -/
theorem claim_c9_witness :
    ∃ pfs2, JValue.obj exFields9 =
        JValue.obj (setField exFields9 "properties" (JValue.obj pfs2)) ∧
      pfs2[0]? = some ("flag", JValue.obj exFalsy) :=
  claim_c9_falsy_annotation_skipped exFields9 [("flag", JValue.obj exFalsy)]
    (JValue.obj exFields9) 0 "flag" exFalsy (JValue.bool false) rfl rfl rfl rfl
    (Or.inl rfl)

/-- Claim C10: a document without a top-level properties member passes
through the pre-processor without failing and unchanged as a parsed
value, which is identity of the serialized text up to JSON
re-serialization. -/
theorem claim_c10_no_properties_identity :
    ∀ fields : List (String × JValue), jLookup fields "properties" = none →
      appendDeprecatedDescription (.obj fields) = .ok (.obj fields) := by
  intro fields h
  simp [appendDeprecatedDescription, h]

/-- Witness for claim C10 at a concrete document without properties. -/
theorem claim_c10_witness :
    appendDeprecatedDescription (JValue.obj [("title", JValue.str "T")]) =
      .ok (JValue.obj [("title", JValue.str "T")]) :=
  claim_c10_no_properties_identity [("title", JValue.str "T")] rfl

/-- Concrete resolution environment for a network address whose fetch
succeeds: the address parses to a https URL with a host, the fetch
promise resolves, and the response body is the JSON text of the empty
object, which JSON.parse accepts; the object tag text of a promise is not
JSON and is rejected. -/
def envC2 : FetchEnv where
  protocol := some "https:"
  hostname := some "example.com"
  urlPath := some "/schema.json"
  httpOk := true
  httpBody := "\x7b\x7d"
  fs := fun _ => none
  pathJoin := fun parts => String.intercalate "/" parts
  dirname := fun _ => "."
  isAbsolute := fun _ => false
  jsonParse := fun s => if s = "\x7b\x7d" then .ok (JValue.obj []) else .error ()
  scriptDir := "/tools"

/-- Claim C2 evaluated on the code: the HTTP fetch succeeds and the body
is the parseable JSON text of the empty object, yet the resolver throws
instead of returning the parsed body, because the response text promise
is never awaited and its string coercion is handed to JSON.parse. -/
theorem claim_c2_http_fetch_bug :
    envC2.jsonParse envC2.httpBody = .ok (JValue.obj []) ∧
    FetchingJSONSchemaStore.fetch envC2 "/in/schema.json"
      "https://example.com/schema.json" = .errored :=
  ⟨rfl, rfl⟩

/-- Concrete resolution environment for a network address whose fetch
promise resolves but whose body extraction would fail: no file fallback
exists, so the claimed behavior is the absence signal. -/
def envC3 : FetchEnv where
  protocol := some "https:"
  hostname := some "example.com"
  urlPath := some "/schema.json"
  httpOk := true
  httpBody := ""
  fs := fun _ => none
  pathJoin := fun parts => String.intercalate "/" parts
  dirname := fun _ => "."
  isAbsolute := fun _ => false
  jsonParse := fun _ => .error ()
  scriptDir := "/tools"

/-- Same environment with the fetch promise rejecting, the one network
failure the catch block does intercept. -/
def envC3net : FetchEnv where
  protocol := some "https:"
  hostname := some "example.com"
  urlPath := some "/schema.json"
  httpOk := false
  httpBody := ""
  fs := fun _ => none
  pathJoin := fun parts => String.intercalate "/" parts
  dirname := fun _ => "."
  isAbsolute := fun _ => false
  jsonParse := fun _ => .error ()
  scriptDir := "/tools"

/-- Claim C3 evaluated on the code: when the fetch promise resolves, any
failure of the body extraction is not downgraded to no content, since the
un-awaited text promise is stored as content and the resolver throws from
JSON.parse instead of falling through and returning the absence signal;
only a rejection of the fetch promise itself is downgraded, as the second
conjunct shows. -/
theorem claim_c3_network_failure_bug :
    FetchingJSONSchemaStore.fetch envC3 "/in/schema.json"
      "https://example.com/schema.json" = .errored ∧
    FetchingJSONSchemaStore.fetch envC3net "/in/schema.json"
      "https://example.com/schema.json" = .absent :=
  ⟨rfl, rfl⟩

/-- Claim C4: an address with the custom ng-cli scheme is read at the
join of the fixed package-relative base directory with the host and path
of the address; when that file does not exist the read error propagates
out of the resolver whatever other files exist, with no fallback to the
later resolution steps, and a generation failure makes the process exit
with status 127 without writing anything. -/
theorem claim_c4_ngcli_fatal :
    (∀ (env : FetchEnv) (inPath address h p : String),
      env.protocol = some "ng-cli:" → env.hostname = some h → env.urlPath = some p →
      env.fs (env.pathJoin [env.scriptDir, "../packages/angular/cli", h, p]) = none →
      FetchingJSONSchemaStore.fetch env inPath address = .errored) ∧
    (∀ (genv : GenEnv) (inPath outPath : String),
      generate genv inPath = .error () →
      mainModel genv inPath outPath = ⟨127, [], ["An error happened:"], none⟩) := by
  constructor
  · intro env inPath address h p h1 h2 h3 h4
    simp [FetchingJSONSchemaStore.fetch, fetchStep1, h1, h2, h3, h4]
  · intro genv inPath outPath hg
    simp [mainModel, hg]

/-- Concrete resolution environment for the C4 witness: a custom-scheme
address whose target file is missing. -/
def envC4 : FetchEnv where
  protocol := some "ng-cli:"
  hostname := some "config"
  urlPath := some "/schema.json"
  httpOk := false
  httpBody := ""
  fs := fun _ => none
  pathJoin := fun parts => String.intercalate "/" parts
  dirname := fun _ => "."
  isAbsolute := fun _ => true
  jsonParse := fun _ => .error ()
  scriptDir := "/tools"

/-- Program environment whose generation fails (the input file is
missing and quicktype rejects). -/
def genEnvFail : GenEnv where
  fs := fun _ => none
  jsonParse := fun _ => .error ()
  jsonStringify := fun _ => ""
  quicktypeLines := fun _ => .error ()
  workspaceResolve := fun s => s

/-- Witness for claim C4 at a concrete custom-scheme address and a
concrete failing generation. -/
theorem claim_c4_witness :
    FetchingJSONSchemaStore.fetch envC4 "/in.json" "ng-cli://config/schema.json" =
      .errored ∧
    mainModel genEnvFail "/in.json" "out.ts" = ⟨127, [], ["An error happened:"], none⟩ :=
  ⟨claim_c4_ngcli_fatal.1 envC4 "/in.json" "ng-cli://config/schema.json" "config"
      "/schema.json" rfl rfl rfl rfl,
    claim_c4_ngcli_fatal.2 genEnvFail "/in.json" "out.ts" rfl⟩

/-- Claim C6: fewer than 2 or more than 3 positional arguments print an
error and exit with status 1; with the dash sentinel as output path the
generated text is printed to standard output, the process exits with
status 0, and nothing is written to the filesystem. -/
theorem claim_c6_argv_and_stdout :
    (∀ (env : GenEnv) (argv : List String), argv.length < 2 ∨ argv.length > 3 →
      runProgram env argv = ⟨1, [], ["Must include 2 or 3 arguments."], none⟩) ∧
    (∀ (env : GenEnv) (inPath content : String) (rest : List String), rest.length ≤ 1 →
      generate env inPath = .ok content →
      runProgram env (inPath :: "-" :: rest) = ⟨0, [content], [], none⟩) := by
  constructor
  · intro env argv hlen
    have hb : (decide (argv.length < 2) || decide (argv.length > 3)) = true := by
      simp only [Bool.or_eq_true, decide_eq_true_eq]
      exact hlen
    simp only [runProgram, hb, if_true]
  · intro env inPath content rest hrest hg
    have hb : (decide ((inPath :: "-" :: rest).length < 2) ||
        decide ((inPath :: "-" :: rest).length > 3)) = false := by
      simp only [Bool.or_eq_false_iff, decide_eq_false_iff_not, List.length_cons]
      omega
    simp only [runProgram, hb, Bool.false_eq_true, if_false]
    simp [mainModel, hg]

/-- Claim C7: the output file is never written when generation fails, and
a write only ever happens with the full successfully generated content at
the resolved output path, so a failed run cannot leave a truncated
output file. -/
theorem claim_c7_no_partial_output :
    (∀ (env : GenEnv) (inPath outPath : String),
      generate env inPath = .error () →
      (mainModel env inPath outPath).written = none) ∧
    (∀ (env : GenEnv) (inPath outPath p c : String),
      (mainModel env inPath outPath).written = some (p, c) →
      generate env inPath = .ok c ∧ p = env.workspaceResolve outPath) := by
  constructor
  · intro env inPath outPath hg
    simp [mainModel, hg]
  · intro env inPath outPath p c hw
    cases hg : generate env inPath with
    | error e => simp [mainModel, hg] at hw
    | ok content =>
      simp only [mainModel, hg] at hw
      by_cases ho : outPath = "-"
      · rw [if_pos ho] at hw
        simp at hw
      · rw [if_neg ho] at hw
        simp only [Option.some.injEq, Prod.mk.injEq] at hw
        obtain ⟨hp, hc⟩ := hw
        exact ⟨by rw [hc], hp.symm⟩

/-- Claim C8: a successful generation produces exactly the fixed header,
the emitted lines joined with newlines, and the empty footer. -/
theorem claim_c8_output_format :
    ∀ (env : GenEnv) (inPath raw schemaStr : String) (lines : List String),
      env.fs inPath = some raw →
      appendDeprecatedDescriptionStr env.jsonParse env.jsonStringify raw = .ok schemaStr →
      env.quicktypeLines schemaStr = .ok lines →
      generate env inPath = .ok (header ++ String.intercalate "\n" lines ++ footer) := by
  intro env inPath raw schemaStr lines h1 h2 h3
  simp [generate, h1, h2, h3]

/-- Program environment whose generation succeeds on the example input
file, with a one-line generator output. -/
def genEnvOk : GenEnv where
  fs := fun p => if p = "in.json" then some "\x7b\x7d" else none
  jsonParse := fun s => if s = "\x7b\x7d" then .ok (JValue.obj []) else .error ()
  jsonStringify := fun _ => "\x7b\x7d"
  quicktypeLines := fun _ => .ok ["export type Schema = \x7b\x7d;"]
  workspaceResolve := fun s => "/workspace/" ++ s

/-- Witness for claim C6 at a concrete one-argument call and a concrete
call with the dash output path. -/
theorem claim_c6_witness :
    runProgram genEnvOk ["in.json"] =
      ⟨1, [], ["Must include 2 or 3 arguments."], none⟩ ∧
    runProgram genEnvOk ["in.json", "-"] =
      ⟨0, [header ++ String.intercalate "\n" ["export type Schema = \x7b\x7d;"] ++ footer],
        [], none⟩ :=
  ⟨claim_c6_argv_and_stdout.1 genEnvOk ["in.json"] (Or.inl (by decide)),
    claim_c6_argv_and_stdout.2 genEnvOk "in.json"
      (header ++ String.intercalate "\n" ["export type Schema = \x7b\x7d;"] ++ footer)
      [] (by decide) rfl⟩

/-- Witness for claim C7 at a concrete failing run and a concrete
successful write. -/
theorem claim_c7_witness :
    (mainModel genEnvFail "/in.json" "out.ts").written = none ∧
    (generate genEnvOk "in.json" =
        .ok (header ++ String.intercalate "\n" ["export type Schema = \x7b\x7d;"] ++ footer) ∧
      "/workspace/out.ts" = genEnvOk.workspaceResolve "out.ts") :=
  ⟨claim_c7_no_partial_output.1 genEnvFail "/in.json" "out.ts" rfl,
    claim_c7_no_partial_output.2 genEnvOk "in.json" "out.ts" "/workspace/out.ts"
      (header ++ String.intercalate "\n" ["export type Schema = \x7b\x7d;"] ++ footer) rfl⟩

/-- Witness for claim C8 at the concrete successful environment. -/
theorem claim_c8_witness :
    generate genEnvOk "in.json" =
      .ok (header ++ String.intercalate "\n" ["export type Schema = \x7b\x7d;"] ++ footer) :=
  claim_c8_output_format genEnvOk "in.json" "\x7b\x7d" "\x7b\x7d"
    ["export type Schema = \x7b\x7d;"] rfl rfl rfl
